import Mathlib

set_option maxHeartbeats 1000000

/-!
Verification development for the notebook-on-demand entrypoint
(`src/entrypoint.py`).  The pipeline is: read the job request from
environment variables, fetch the notebook, resolve a Python kernel,
format optional JSON parameters, execute via papermill, and report the
outcome to an optional webhook.  External collaborators (HTTP client,
kernel registry, subprocess runner, Python `json` module) are modelled
as oracle inputs or, where the spec is the only description, from the
spec's words.
-/

/-- Python truthiness of an optional environment-variable value:
`None` and the empty string are falsy, every other string is truthy. -/
def truthy : Option String → Bool
  | none => false
  | some s => decide (s ≠ "")

/-- Modelled from the spec: the structured-data (JSON-like) values handled by
the Parameter Formatter (Python `json.loads` / `json.dumps`, which are not part
of this repository).  Numbers are modelled as integers; object fields keep
their text order. -/
inductive Json where
  | null : Json
  | bool : Bool → Json
  | num : Int → Json
  | str : String → Json
  | arr : List Json → Json
  | obj : List (String × Json) → Json
deriving Repr

/-- JSON insignificant whitespace characters. -/
def isWsCh (c : Char) : Bool := c = ' ' || c = '\n' || c = '\t' || c = '\r'

/-- Drop leading insignificant whitespace. -/
def skipWs : List Char → List Char
  | [] => []
  | c :: cs => if isWsCh c then skipWs cs else c :: cs

/-- Serialization of one character inside a JSON string literal: quote,
backslash and the common control characters are escaped, everything else is
emitted verbatim. -/
def escapeChar (c : Char) : List Char :=
  if c = '"' then ['\\', '"']
  else if c = '\\' then ['\\', '\\']
  else if c = '\n' then ['\\', 'n']
  else if c = '\t' then ['\\', 't']
  else if c = '\r' then ['\\', 'r']
  else [c]

/-- Escape every character of a string body. -/
def escapeList : List Char → List Char
  | [] => []
  | c :: cs => escapeChar c ++ escapeList cs

/-- A JSON string literal: quoted, escaped body. -/
def renderStr (s : String) : List Char := '"' :: (escapeList s.toList ++ ['"'])

/-- The decimal digit character for `n < 10`. -/
def digitChar (n : Nat) : Char := Char.ofNat (48 + n)

/-- Decimal digits of a natural number, most significant first. -/
def natDigits (n : Nat) : List Char :=
  if _h : n < 10 then [digitChar n]
  else natDigits (n / 10) ++ [digitChar (n % 10)]
decreasing_by exact Nat.div_lt_self (by omega) (by omega)

/-- Value of a list of decimal digit characters. -/
def digitsToNat (ds : List Char) : Nat :=
  ds.foldl (fun a c => a * 10 + (c.toNat - 48)) 0

/-- Decimal serialization of an integer. -/
def renderInt : Int → List Char
  | .ofNat n => natDigits n
  | .negSucc m => '-' :: natDigits (m + 1)

/-- Newline followed by `ind` spaces of indentation. -/
def nlInd (ind : Nat) : List Char := '\n' :: List.replicate ind ' '

mutual

/-- Modelled from the spec: deterministic canonical serialization with
2-space indentation (Python `json.dumps(data, indent=2)`), at indentation
level `ind`. -/
def renderVal (ind : Nat) : Json → List Char
  | .null => 'n' :: 'u' :: 'l' :: 'l' :: []
  | .bool true => 't' :: 'r' :: 'u' :: 'e' :: []
  | .bool false => 'f' :: 'a' :: 'l' :: 's' :: 'e' :: []
  | .num i => renderInt i
  | .str s => renderStr s
  | .arr [] => ['[', ']']
  | .arr (x :: xs) =>
      '[' :: (nlInd (ind + 2) ++ renderVal (ind + 2) x ++ renderElems (ind + 2) xs
        ++ nlInd ind ++ [']'])
  | .obj [] => ['{', '}']
  | .obj ((k, v) :: fs) =>
      '{' :: (nlInd (ind + 2) ++ renderStr k ++ ':' :: ' ' :: renderVal (ind + 2) v
        ++ renderFields (ind + 2) fs ++ nlInd ind ++ ['}'])

/-- Remaining array elements, each preceded by a comma and a fresh
indented line. -/
def renderElems (ind : Nat) : List Json → List Char
  | [] => []
  | x :: xs => ',' :: (nlInd ind ++ renderVal ind x ++ renderElems ind xs)

/-- Remaining object fields, each preceded by a comma and a fresh
indented line. -/
def renderFields (ind : Nat) : List (String × Json) → List Char
  | [] => []
  | (k, v) :: fs =>
      ',' :: (nlInd ind ++ renderStr k ++ ':' :: ' ' :: renderVal ind v ++ renderFields ind fs)

end

/-- Decode one escape character of a JSON string literal. -/
def unescChar (c : Char) : Option Char :=
  if c = '"' then some '"'
  else if c = '\\' then some '\\'
  else if c = 'n' then some '\n'
  else if c = 't' then some '\t'
  else if c = 'r' then some '\r'
  else none

/-- Parse the body of a JSON string literal after the opening quote,
returning the decoded characters and the input after the closing quote. -/
def parseStrRest : List Char → Option (List Char × List Char)
  | [] => none
  | c :: cs =>
    if c = '"' then some ([], cs)
    else if c = '\\' then
      match cs with
      | [] => none
      | e :: cs2 =>
        match unescChar e with
        | none => none
        | some d =>
          match parseStrRest cs2 with
          | none => none
          | some (l, r) => some (d :: l, r)
    else
      match parseStrRest cs with
      | none => none
      | some (l, r) => some (c :: l, r)

/-- Split off the maximal leading run of decimal digits. -/
def spanDigits : List Char → List Char × List Char
  | [] => ([], [])
  | c :: cs =>
    if c.isDigit then
      let p := spanDigits cs
      (c :: p.1, p.2)
    else ([], c :: cs)

/-- Parse an optionally negated decimal integer token. -/
def parseIntTok : List Char → Option (Int × List Char)
  | [] => none
  | c :: cs =>
    if c = '-' then
      let p := spanDigits cs
      if p.1.isEmpty then none else some (-(digitsToNat p.1 : Int), p.2)
    else
      let p := spanDigits (c :: cs)
      if p.1.isEmpty then none else some ((digitsToNat p.1 : Int), p.2)

/-- One step of the value parser, abstracted over the parsers used for
nested values, remaining array elements and remaining object fields. -/
def valStep (pv : List Char → Except String (Json × List Char))
    (pe : List Char → Except String (List Json × List Char))
    (pf : List Char → Except String (List (String × Json) × List Char))
    (cs : List Char) : Except String (Json × List Char) :=
  match skipWs cs with
  | [] => .error "Expecting value"
  | c :: cs2 =>
    if c = '"' then
      match parseStrRest cs2 with
      | none => .error "Unterminated string"
      | some (l, r) => .ok (.str (String.mk l), r)
    else if c = '[' then
      let r0 := skipWs cs2
      if r0.head? = some ']' then .ok (.arr [], r0.tail)
      else
        match pv r0 with
        | .error e => .error e
        | .ok (x, r1) =>
          match pe r1 with
          | .error e => .error e
          | .ok (xs, r2) => .ok (.arr (x :: xs), r2)
    else if c = '{' then
      let r0 := skipWs cs2
      if r0.head? = some '}' then .ok (.obj [], r0.tail)
      else if r0.head? = some '"' then
        match parseStrRest r0.tail with
        | none => .error "Unterminated string"
        | some (k, r1) =>
          let r1' := skipWs r1
          if r1'.head? = some ':' then
            match pv r1'.tail with
            | .error e => .error e
            | .ok (v, r2) =>
              match pf r2 with
              | .error e => .error e
              | .ok (fs, r3) => .ok (.obj ((String.mk k, v) :: fs), r3)
          else .error "Expecting colon delimiter"
      else .error "Expecting property name enclosed in double quotes"
    else if c = 'n' then
      match cs2 with
      | 'u' :: 'l' :: 'l' :: r => .ok (.null, r)
      | _ => .error "Expecting value"
    else if c = 't' then
      match cs2 with
      | 'r' :: 'u' :: 'e' :: r => .ok (.bool true, r)
      | _ => .error "Expecting value"
    else if c = 'f' then
      match cs2 with
      | 'a' :: 'l' :: 's' :: 'e' :: r => .ok (.bool false, r)
      | _ => .error "Expecting value"
    else if c = '-' || c.isDigit then
      match parseIntTok (c :: cs2) with
      | none => .error "Expecting value"
      | some (i, r) => .ok (.num i, r)
    else .error "Expecting value"

/-- One step of the remaining-array-elements parser: a comma followed by a
value, repeated, closed by a bracket. -/
def elemsStep (pv : List Char → Except String (Json × List Char))
    (pe : List Char → Except String (List Json × List Char))
    (cs : List Char) : Except String (List Json × List Char) :=
  match skipWs cs with
  | ']' :: r => .ok ([], r)
  | ',' :: r =>
    match pv r with
    | .error e => .error e
    | .ok (x, r1) =>
      match pe r1 with
      | .error e => .error e
      | .ok (xs, r2) => .ok (x :: xs, r2)
  | _ => .error "Expecting comma delimiter"

/-- One step of the remaining-object-fields parser: a comma followed by a
quoted key, a colon and a value, repeated, closed by a brace. -/
def fieldsStep (pv : List Char → Except String (Json × List Char))
    (pf : List Char → Except String (List (String × Json) × List Char))
    (cs : List Char) : Except String (List (String × Json) × List Char) :=
  match skipWs cs with
  | '}' :: r => .ok ([], r)
  | ',' :: r =>
    let r0 := skipWs r
    if r0.head? = some '"' then
      match parseStrRest r0.tail with
      | none => .error "Unterminated string"
      | some (k, r1) =>
        let r1' := skipWs r1
        if r1'.head? = some ':' then
          match pv r1'.tail with
          | .error e => .error e
          | .ok (v, r2) =>
            match pf r2 with
            | .error e => .error e
            | .ok (fs, r3) => .ok ((String.mk k, v) :: fs, r3)
        else .error "Expecting colon delimiter"
    else .error "Expecting property name enclosed in double quotes"
  | _ => .error "Expecting comma delimiter"

/-- The fuel-indexed family of parsers for values, remaining array elements
and remaining object fields.  Fuel bounds the nesting depth; it is spent on
every nested parse. -/
def parsers : Nat →
    (List Char → Except String (Json × List Char))
    × (List Char → Except String (List Json × List Char))
    × (List Char → Except String (List (String × Json) × List Char))
  | 0 =>
    (fun _ => .error "Nesting depth exceeded",
     fun _ => .error "Nesting depth exceeded",
     fun _ => .error "Nesting depth exceeded")
  | fuel + 1 =>
    (valStep (parsers fuel).1 (parsers fuel).2.1 (parsers fuel).2.2,
     elemsStep (parsers fuel).1 (parsers fuel).2.1,
     fieldsStep (parsers fuel).1 (parsers fuel).2.2)

/-- The JSON value parser at a given fuel. -/
def parseV (fuel : Nat) (cs : List Char) : Except String (Json × List Char) :=
  (parsers fuel).1 cs

/-- The remaining-array-elements parser at a given fuel. -/
def parseElemsRest (fuel : Nat) (cs : List Char) : Except String (List Json × List Char) :=
  (parsers fuel).2.1 cs

/-- The remaining-object-fields parser at a given fuel. -/
def parseFieldsRest (fuel : Nat) (cs : List Char) :
    Except String (List (String × Json) × List Char) :=
  (parsers fuel).2.2 cs

/-- Modelled from the spec: the structured-data parser (Python `json.loads`,
not part of this repository): parse one value, allow trailing whitespace,
reject trailing data, and report a parse diagnostic on failure. -/
def parseJson (s : String) : Except String Json :=
  match parseV (s.length + 1) s.toList with
  | .error e => .error e
  | .ok (v, rest) =>
    match skipWs rest with
    | [] => .ok v
    | _ :: _ => .error "Extra data"

/-- The canonical text of a structured value (`json.dumps(data, indent=2)`). -/
def renderJson (v : Json) : String := String.mk (renderVal 0 v)

/-- `format_parameters` from `src/entrypoint.py`: parse the text as JSON and
re-serialize it with 2-space indentation; on a parse failure raise a
`ValueError` carrying the parse diagnostic (modelled as `Except.error`). -/
def format_parameters (parameters_str : String) : Except String String :=
  match parseJson parameters_str with
  | .ok data => .ok (renderJson data)
  | .error e => .error ("Invalid JSON parameters: " ++ e)

/-- Does `needle` occur as a prefix of `hay`?  (character lists) -/
def prefixMatch : List Char → List Char → Bool
  | [], _ => true
  | _ :: _, [] => false
  | n :: ns, h :: hs => n = h && prefixMatch ns hs

/-- Does `needle` occur as a contiguous substring of `hay`?
(Python's `needle in hay` on strings) -/
def substrMatch (needle : List Char) : List Char → Bool
  | [] => prefixMatch needle []
  | h :: hs => prefixMatch needle (h :: hs) || substrMatch needle hs

/-- Python's substring test `needle in hay`. -/
def strContains (hay needle : String) : Bool := substrMatch needle.toList hay.toList

/-- Python's `str.lower()`, characterwise (ASCII letters are lowered; the
kernel identifiers and tokens concerned are ASCII). -/
def lowerStr (s : String) : String := String.mk (s.toList.map Char.toLower)

/-- `get_python_kernel` from `src/entrypoint.py`, with the kernel registry
enumeration (`KernelSpecManager().get_all_specs()` key order) supplied as a
list.  It first keeps the identifiers whose lowercased form contains the
literal token `python` ++ version, then falls back to the identifiers whose
lowercased form contains `python`; if neither exists, the `ValueError` raised
inside the helper is caught and re-wrapped by its own handler. -/
def get_python_kernel (kernels : List String) (python_version : String) : Except String String :=
  let version_kernels := kernels.filter fun k => strContains (lowerStr k) ("python" ++ python_version)
  match version_kernels with
  | k :: _ => .ok k
  | [] =>
    let python_kernels := kernels.filter fun k => strContains (lowerStr k) "python"
    match python_kernels with
    | k :: _ => .ok k
    | [] => .error ("Error getting kernel: No Python kernel found for version " ++ python_version)

/-- The HTTP POST a webhook notification performs:  target URL, JSON body and
optional Authorization header value. -/
structure HttpRequest where
  url : String
  body : Json
  authHeader : Option String
deriving Repr

/-- The JSON body `{"status": status, "message": message}` of an outcome
notification. -/
def webhookBody (status message : String) : Json :=
  .obj [("status", .str status), ("message", .str message)]

/-- `send_webhook` from `src/entrypoint.py`.  `secret` is the
`WEBHOOK_SECRET` environment variable and `post` the transport outcome of
`requests.post` plus `raise_for_status` (an oracle).  The function returns the
request it attempted, if any; the error branch of the post is caught and
swallowed, so the returned value never depends on `post` and no failure
escapes. -/
def send_webhook (secret : Option String) (post : HttpRequest → Except String Unit)
    (webhook_url : Option String) (status message : String) : Option HttpRequest :=
  if truthy webhook_url then
    let headers : Option String :=
      if truthy secret then some ("Bearer " ++ secret.getD "") else none
    let req : HttpRequest :=
      { url := webhook_url.getD "", body := webhookBody status message, authHeader := headers }
    let _ := post req
    some req
  else none

/-- Completion status of a subprocess (`subprocess.run` result). -/
structure SubprocResult where
  returncode : Int
  stdout : String
  stderr : String

/-- Observable trace of one `execute_notebook` call. -/
structure ExecTrace where
  cmd : List String
  tempFileWritten : Option (String × String)
  tempFilesAtEnd : List String
  result : Except String Unit
deriving Repr

/-- `execute_notebook` from `src/entrypoint.py`.  `run` is the external
`papermill` subprocess (an oracle over the argument vector) and `paramPath`
the name a fresh `NamedTemporaryFile` would receive.  When `parameters` is
truthy the formatted text is staged in that file, its path is passed after
`-f`, and the file is unlinked in a `finally` block on success and failure
alike; a non-zero return code becomes a `RuntimeError` carrying stderr. -/
def execute_notebook (run : List String → SubprocResult) (paramPath : String)
    (notebook_path output_path : String) (parameters : Option String)
    (kernel_name : Option String) : ExecTrace :=
  let cmd0 := ["papermill", notebook_path, output_path]
  let cmd1 := if truthy kernel_name then cmd0 ++ ["--kernel", kernel_name.getD ""] else cmd0
  if truthy parameters then
    let cmd2 := cmd1 ++ ["-f", paramPath]
    let res := run cmd2
    { cmd := cmd2,
      tempFileWritten := some (paramPath, parameters.getD ""),
      tempFilesAtEnd := [],
      result :=
        if res.returncode ≠ 0 then .error ("Notebook execution failed: " ++ res.stderr)
        else .ok () }
  else
    let res := run cmd1
    { cmd := cmd1,
      tempFileWritten := none,
      tempFilesAtEnd := [],
      result :=
        if res.returncode ≠ 0 then .error ("Notebook execution failed: " ++ res.stderr)
        else .ok () }

/-- The process environment read by `main` at start. -/
structure Env where
  notebook : Option String
  parameters : Option String
  webhook : Option String
  pythonVersion : Option String
  webhookSecret : Option String

/-- The external collaborators of one job run: kernel registry enumeration,
outcome of the notebook download (`requests.get`, `raise_for_status` and the
file write), the papermill subprocess, and the webhook transport. -/
structure Oracles where
  kernels : List String
  fetch : Except String Unit
  run : List String → SubprocResult
  post : HttpRequest → Except String Unit

/-- `get_python_version` from `src/entrypoint.py`: the `PYTHON_VERSION`
environment variable, or the fixed default. -/
def get_python_version (env : Env) : String :=
  match env.pythonVersion with
  | none => "3.11"
  | some s => s

/-- Observable trace of one whole job run of `main`. -/
structure RunResult where
  exitCode : Nat
  notifications : List (Option String × String × String)
  requests : List HttpRequest
  errorOutput : List String
  workspaceCreated : Bool
  workspaceFilesAtEnd : List String
  fetchAttempted : Bool
  kernelQueried : Bool
  formatterInvoked : Bool
  execTrace : Option ExecTrace

/-- The trace of a run of `main` that reached the `except` handler with
message `msg` after the workspace was created:  the diagnostic is printed,
a failure notification is attempted, the `with TemporaryDirectory` block has
already removed every workspace file, and the process exits with code 1. -/
def failTrace (env : Env) (o : Oracles) (msg : String) (fetched : Bool)
    (kq : Bool) (fi : Bool) (et : Option ExecTrace) : RunResult :=
  { exitCode := 1,
    notifications := [(env.webhook, "failed", msg)],
    requests := (send_webhook env.webhookSecret o.post env.webhook "failed" msg).toList,
    errorOutput := ["Error: " ++ msg],
    workspaceCreated := true,
    workspaceFilesAtEnd := [],
    fetchAttempted := fetched,
    kernelQueried := kq,
    formatterInvoked := fi,
    execTrace := et }

/-- The trace of a run of `main` that aborted before creating the workspace
because `NOTEBOOK` is unset or empty. -/
def missingSourceTrace (env : Env) (o : Oracles) : RunResult :=
  { exitCode := 1,
    notifications := [(env.webhook, "failed", "NOTEBOOK environment variable is not set")],
    requests := (send_webhook env.webhookSecret o.post env.webhook "failed"
      "NOTEBOOK environment variable is not set").toList,
    errorOutput := ["Error: NOTEBOOK environment variable is not set"],
    workspaceCreated := false,
    workspaceFilesAtEnd := [],
    fetchAttempted := false,
    kernelQueried := false,
    formatterInvoked := false,
    execTrace := none }

/-- The trace of a run of `main` whose executor call returned success. -/
def successTrace (env : Env) (o : Oracles) (fi : Bool) (t : ExecTrace) : RunResult :=
  { exitCode := 0,
    notifications := [(env.webhook, "success", "Notebook execution completed successfully")],
    requests := (send_webhook env.webhookSecret o.post env.webhook "success"
      "Notebook execution completed successfully").toList,
    errorOutput := [],
    workspaceCreated := true,
    workspaceFilesAtEnd := [],
    fetchAttempted := true,
    kernelQueried := true,
    formatterInvoked := fi,
    execTrace := some t }

/-- The execution phase of `main`: run the notebook and dispatch on the
executor outcome. -/
def execPhase (env : Env) (o : Oracles) (paramPath : String) (kernel_name : String)
    (fp : Option String) (fi : Bool) : RunResult :=
  let t := execute_notebook o.run paramPath "notebook.ipynb" "output.ipynb" fp
    (some kernel_name)
  match t.result with
  | .error e => failTrace env o e true true fi (some t)
  | .ok () => successTrace env o fi t

/-- `main` from `src/entrypoint.py` as a function of the environment and the
external collaborators, returning the observable trace of the run.
`paramPath` names the temporary parameters file `execute_notebook` would
create.  The `with TemporaryDirectory` block removes the workspace on every
exit path of its body; `sys.exit(1)` happens after the handler, a normal
return exits with code 0. -/
def mainRun (env : Env) (o : Oracles) (paramPath : String) : RunResult :=
  if truthy env.notebook = false then missingSourceTrace env o
  else
    match o.fetch with
    | .error e => failTrace env o ("Failed to download notebook: " ++ e) true false false none
    | .ok () =>
      match get_python_kernel o.kernels (get_python_version env) with
      | .error e => failTrace env o e true true false none
      | .ok kernel_name =>
        if truthy env.parameters then
          match format_parameters (env.parameters.getD "") with
          | .error e => failTrace env o e true true true none
          | .ok fp => execPhase env o paramPath kernel_name (some fp) true
        else execPhase env o paramPath kernel_name none false

mutual

/-- Parsing fuel sufficient for a value: one unit per parser step. -/
def jsonFuel : Json → Nat
  | .null => 1
  | .bool _ => 1
  | .num _ => 1
  | .str _ => 1
  | .arr xs => 1 + elemsFuel xs
  | .obj fs => 1 + fieldsFuel fs

/-- Parsing fuel sufficient for the remaining elements of an array. -/
def elemsFuel : List Json → Nat
  | [] => 1
  | x :: xs => 1 + jsonFuel x + elemsFuel xs

/-- Parsing fuel sufficient for the remaining fields of an object. -/
def fieldsFuel : List (String × Json) → Nat
  | [] => 1
  | (_, v) :: fs => 1 + jsonFuel v + fieldsFuel fs

end

/-- The continuation after a rendered number must not begin with a digit,
or the maximal-munch number token would absorb it. -/
def noDigitHead : List Char → Bool
  | [] => true
  | c :: _ => !c.isDigit

/-- The job succeeded:  the document source is configured, the download
succeeded, a kernel resolved, the supplied parameters (if any) formatted,
and the executor returned success.  This is the spec's description of an
overall success, stated from the stage contracts. -/
def JobSuccess (env : Env) (o : Oracles) (paramPath : String) : Prop :=
  truthy env.notebook = true ∧
  o.fetch = .ok () ∧
  ∃ k, get_python_kernel o.kernels (get_python_version env) = .ok k ∧
    ∃ fp : Option String,
      ((truthy env.parameters = true ∧
          ∃ c, format_parameters (env.parameters.getD "") = .ok c ∧ fp = some c) ∨
        (truthy env.parameters = false ∧ fp = none)) ∧
      (execute_notebook o.run paramPath "notebook.ipynb" "output.ipynb" fp
        (some k)).result = .ok ()

/-- A job request with nothing configured. -/
def envNone : Env where
  notebook := none
  parameters := none
  webhook := none
  pythonVersion := none
  webhookSecret := none

/-- A job request with only the document source configured. -/
def envOk : Env where
  notebook := some "http://host/nb.ipynb"
  parameters := none
  webhook := none
  pythonVersion := none
  webhookSecret := none

/-- Collaborators for a successful run: one matching kernel, a successful
download, a papermill run returning 0, a webhook transport that accepts. -/
def oracleOk : Oracles where
  kernels := ["python3.11"]
  fetch := .ok ()
  run := fun _ => { returncode := 0, stdout := "", stderr := "" }
  post := fun _ => .ok ()

/-! ## Substring matching lemmas -/

theorem prefixMatch_iff (n hay : List Char) :
    prefixMatch n hay = true ↔ ∃ r, hay = n ++ r := by
  induction n generalizing hay with
  | nil => simp [prefixMatch]
  | cons c ns ih =>
    cases hay with
    | nil => simp [prefixMatch]
    | cons h hs =>
      simp only [prefixMatch, Bool.and_eq_true, decide_eq_true_eq, ih, List.cons_append,
        List.cons.injEq]
      constructor
      · rintro ⟨rfl, r, rfl⟩; exact ⟨r, rfl, rfl⟩
      · rintro ⟨r, rfl, rfl⟩; exact ⟨rfl, r, rfl⟩

theorem substrMatch_iff (n hay : List Char) :
    substrMatch n hay = true ↔ ∃ l r, hay = l ++ n ++ r := by
  induction hay with
  | nil =>
    simp only [substrMatch, prefixMatch_iff]
    constructor
    · rintro ⟨r, hr⟩
      exact ⟨[], r, by simpa using hr⟩
    · rintro ⟨l, r, hr⟩
      have hl : l = [] := by
        cases l with
        | nil => rfl
        | cons a t => simp at hr
      subst hl
      exact ⟨r, by simpa using hr⟩
  | cons h hs ih =>
    simp only [substrMatch, Bool.or_eq_true, prefixMatch_iff, ih]
    constructor
    · rintro (⟨r, hr⟩ | ⟨l, r, hr⟩)
      · exact ⟨[], r, by simpa using hr⟩
      · exact ⟨h :: l, r, by simp [hr]⟩
    · rintro ⟨l, r, hr⟩
      cases l with
      | nil => exact Or.inl ⟨r, by simpa using hr⟩
      | cons a t =>
        simp only [List.cons_append, List.cons.injEq] at hr
        exact Or.inr ⟨t, r, hr.2⟩

theorem toList_append (a b : String) : (a ++ b).toList = a.toList ++ b.toList := by
  cases a; cases b; rfl

theorem strContains_append_right (a b : String) : strContains (a ++ b) b = true := by
  rw [strContains, substrMatch_iff, toList_append]
  exact ⟨a.toList, [], by simp⟩

theorem find?_eq_filterHead {α : Type} (p : α → Bool) (l : List α) :
    l.find? p = (l.filter p).head? := by
  induction l with
  | nil => rfl
  | cons a t ih =>
    by_cases h : p a = true
    · rw [List.find?_cons_of_pos _ h, List.filter_cons_of_pos h, List.head?_cons]
    · rw [List.find?_cons_of_neg _ (by simp [h]), List.filter_cons_of_neg (by simp [h]), ih]

/-! ## C1: kernel resolution -/

/-- Counterexample to C1 as stated: the exact-match tier is not
case-insensitive in the requested version.  With installed kernels
`["pythonfoo", "PYTHONX"]` and requested version `"X"`, the identifier
`"PYTHONX"` contains the token `"python" ++ "X"` case-insensitively while
`"pythonfoo"` does not, so the claimed policy would return `"PYTHONX"`;
the code returns `"pythonfoo"` (via the fallback tier), because it
lowercases only the identifier and not the token. -/
theorem C1_counterexample :
    get_python_kernel ["pythonfoo", "PYTHONX"] "X" = .ok "pythonfoo" ∧
    strContains (lowerStr "PYTHONX") (lowerStr ("python" ++ "X")) = true ∧
    strContains (lowerStr "pythonfoo") (lowerStr ("python" ++ "X")) = false :=
  ⟨rfl, rfl, rfl⟩

/-- Claim C1 (amended): kernel resolution follows the two-tier policy in
which case-insensitivity applies to the installed identifier only: the
identifier is lowercased and tested for containment of the literal token
`"python" ++ version`; the first identifier in registry enumeration order
whose lowercased form contains that token is returned; otherwise the first
whose lowercased form contains `"python"`; otherwise resolution fails with
an error naming the requested version. -/
theorem C1_kernel_resolution (kernels : List String) (v : String) :
    (∀ k, kernels.find? (fun k => strContains (lowerStr k) ("python" ++ v)) = some k →
      get_python_kernel kernels v = .ok k) ∧
    (kernels.find? (fun k => strContains (lowerStr k) ("python" ++ v)) = none →
      ∀ k, kernels.find? (fun k => strContains (lowerStr k) "python") = some k →
        get_python_kernel kernels v = .ok k) ∧
    (kernels.find? (fun k => strContains (lowerStr k) ("python" ++ v)) = none →
      kernels.find? (fun k => strContains (lowerStr k) "python") = none →
      ∃ m, get_python_kernel kernels v = .error m ∧ strContains m v = true) := by
  simp only [find?_eq_filterHead]
  refine ⟨?_, ?_, ?_⟩
  · intro k hk
    cases h : kernels.filter (fun k => strContains (lowerStr k) ("python" ++ v)) with
    | nil => rw [h] at hk; simp at hk
    | cons a t =>
      rw [h] at hk
      simp only [List.head?_cons, Option.some.injEq] at hk
      subst hk
      simp [get_python_kernel, h]
  · intro h1 k hk
    rw [List.head?_eq_none_iff] at h1
    cases h2 : kernels.filter (fun k => strContains (lowerStr k) "python") with
    | nil => rw [h2] at hk; simp at hk
    | cons a t =>
      rw [h2] at hk
      simp only [List.head?_cons, Option.some.injEq] at hk
      subst hk
      simp [get_python_kernel, h1, h2]
  · intro h1 h2
    rw [List.head?_eq_none_iff] at h1 h2
    refine ⟨"Error getting kernel: No Python kernel found for version " ++ v, ?_, ?_⟩
    · simp [get_python_kernel, h1, h2]
    · exact strContains_append_right _ v

/-- Witness for C1 at the spec's own test vector: among
`["python3.9", "python3.11", "python3.11-experimental"]` the requested
version `"3.11"` resolves to `"python3.11"`, the first exact match in
registry order. -/
theorem C1_kernel_resolution_witness :
    get_python_kernel ["python3.9", "python3.11", "python3.11-experimental"] "3.11"
      = .ok "python3.11" :=
  (C1_kernel_resolution ["python3.9", "python3.11", "python3.11-experimental"] "3.11").1
    "python3.11" (by rfl)

/-! ## C2: missing document source -/

/-- Counterexample to C2 as stated: the fixed diagnostic of the code is
`"NOTEBOOK environment variable is not set"`, not
`"document source not specified"`; the notification attempted on a run with
no document source carries the former message. -/
theorem C2_counterexample :
    (mainRun envNone oracleOk "params.json").notifications
        = [(none, "failed", "NOTEBOOK environment variable is not set")] ∧
    "NOTEBOOK environment variable is not set" ≠ "document source not specified" :=
  ⟨rfl, by decide⟩

/-- Claim C2 (amended): if the document source is missing at process start,
the job transitions directly to a terminal failure with the fixed diagnostic
`"NOTEBOOK environment variable is not set"`, skipping workspace creation,
fetching, kernel resolution, formatting and execution; a failure notification
carrying that exact message is still attempted and the process exits with
code 1. -/
theorem C2_missing_source (env : Env) (o : Oracles) (pp : String)
    (h : truthy env.notebook = false) :
    (mainRun env o pp).exitCode = 1 ∧
    (mainRun env o pp).notifications
        = [(env.webhook, "failed", "NOTEBOOK environment variable is not set")] ∧
    (mainRun env o pp).errorOutput = ["Error: NOTEBOOK environment variable is not set"] ∧
    (mainRun env o pp).workspaceCreated = false ∧
    (mainRun env o pp).fetchAttempted = false ∧
    (mainRun env o pp).kernelQueried = false ∧
    (mainRun env o pp).formatterInvoked = false ∧
    (mainRun env o pp).execTrace = none := by
  simp [mainRun, h, missingSourceTrace]

/-- Witness for C2 on the all-unset environment. -/
theorem C2_missing_source_witness :
    (mainRun envNone oracleOk "params.json").exitCode = 1 ∧
    (mainRun envNone oracleOk "params.json").notifications
        = [(none, "failed", "NOTEBOOK environment variable is not set")] ∧
    (mainRun envNone oracleOk "params.json").errorOutput
        = ["Error: NOTEBOOK environment variable is not set"] ∧
    (mainRun envNone oracleOk "params.json").workspaceCreated = false ∧
    (mainRun envNone oracleOk "params.json").fetchAttempted = false ∧
    (mainRun envNone oracleOk "params.json").kernelQueried = false ∧
    (mainRun envNone oracleOk "params.json").formatterInvoked = false ∧
    (mainRun envNone oracleOk "params.json").execTrace = none := by
  have h := C2_missing_source envNone oracleOk "params.json" (by rfl)
  simpa [envNone] using h

/-! ## C3: the notifier never fails the job -/

/-- Claim C3: the notifier never fails the job: with no endpoint the notify
operation attempts no request; the result of a notify call does not depend on
the outcome of the HTTP post (failures are caught and swallowed); and the
process exit code of a whole run does not depend on the webhook transport
outcome at all. -/
theorem C3_notification_isolation :
    (∀ (secret : Option String) (post : HttpRequest → Except String Unit)
        (url : Option String) (status msg : String), truthy url = false →
      send_webhook secret post url status msg = none) ∧
    (∀ (secret : Option String) (post post' : HttpRequest → Except String Unit)
        (url : Option String) (status msg : String),
      send_webhook secret post url status msg = send_webhook secret post' url status msg) ∧
    (∀ (env : Env) (o : Oracles) (pp : String) (post' : HttpRequest → Except String Unit),
      (mainRun env { o with post := post' } pp).exitCode = (mainRun env o pp).exitCode) := by
  refine ⟨?_, ?_, ?_⟩
  · intro secret post url status msg h
    simp [send_webhook, h]
  · intro secret post post' url status msg
    rfl
  · intro env o pp post'
    rfl

/-- Witness for C3: an unset endpoint attempts no request, and replacing the
webhook transport of a failing run by a rejecting one leaves the exit code
unchanged. -/
theorem C3_notification_isolation_witness :
    send_webhook none (fun _ => .ok ()) none "failed" "m" = none ∧
    (mainRun envNone { oracleOk with post := fun _ => .error "connection refused" }
        "params.json").exitCode = (mainRun envNone oracleOk "params.json").exitCode :=
  ⟨C3_notification_isolation.1 none (fun _ => .ok ()) none "failed" "m" rfl,
   C3_notification_isolation.2.2 envNone oracleOk "params.json"
     (fun _ => .error "connection refused")⟩

/-! ## C8: parameter staging file lifecycle -/

/-- Claim C8: whenever truthy formatted parameters are supplied to the
execution delegate, they are written to the fresh temporary file, the file's
path is passed to the executor after the `-f` flag, and the staging file is
gone after the call on the success path and on every failure path alike. -/
theorem C8_parameter_staging (run : List String → SubprocResult)
    (paramPath notebook_path output_path : String)
    (parameters kernel_name : Option String)
    (h : truthy parameters = true) :
    (execute_notebook run paramPath notebook_path output_path parameters
        kernel_name).tempFileWritten = some (paramPath, parameters.getD "") ∧
    (∃ l, (execute_notebook run paramPath notebook_path output_path parameters
        kernel_name).cmd = l ++ ["-f", paramPath]) ∧
    (execute_notebook run paramPath notebook_path output_path parameters
        kernel_name).tempFilesAtEnd = [] ∧
    ((∃ e, (execute_notebook run paramPath notebook_path output_path parameters
        kernel_name).result = .error e) ∨
      (execute_notebook run paramPath notebook_path output_path parameters
        kernel_name).result = .ok ()) := by
  simp only [execute_notebook, h, if_true]
  refine ⟨trivial, ⟨_, rfl⟩, trivial, ?_⟩
  split <;> split
  · exact Or.inl ⟨_, rfl⟩
  · exact Or.inr rfl
  · exact Or.inl ⟨_, rfl⟩
  · exact Or.inr rfl

/-- Witness for C8 on a concrete failing executor: the staging file is
written, passed after `-f`, and gone afterwards. -/
theorem C8_parameter_staging_witness :
    (execute_notebook (fun _ => { returncode := 1, stdout := "", stderr := "boom" })
        "/tmp/p.json" "notebook.ipynb" "output.ipynb" (some "fmtnull") (some "python3.11")
        ).tempFileWritten = some ("/tmp/p.json", "fmtnull") ∧
    (∃ l, (execute_notebook (fun _ => { returncode := 1, stdout := "", stderr := "boom" })
        "/tmp/p.json" "notebook.ipynb" "output.ipynb" (some "fmtnull") (some "python3.11")
        ).cmd = l ++ ["-f", "/tmp/p.json"]) ∧
    (execute_notebook (fun _ => { returncode := 1, stdout := "", stderr := "boom" })
        "/tmp/p.json" "notebook.ipynb" "output.ipynb" (some "fmtnull") (some "python3.11")
        ).tempFilesAtEnd = [] ∧
    ((∃ e, (execute_notebook (fun _ => { returncode := 1, stdout := "", stderr := "boom" })
        "/tmp/p.json" "notebook.ipynb" "output.ipynb" (some "fmtnull") (some "python3.11")
        ).result = .error e) ∨
      (execute_notebook (fun _ => { returncode := 1, stdout := "", stderr := "boom" })
        "/tmp/p.json" "notebook.ipynb" "output.ipynb" (some "fmtnull") (some "python3.11")
        ).result = .ok ()) :=
  C8_parameter_staging (fun _ => { returncode := 1, stdout := "", stderr := "boom" })
    "/tmp/p.json" "notebook.ipynb" "output.ipynb" (some "fmtnull") (some "python3.11")
    (by rfl)

/-! ## C9: notification wire contract -/

theorem send_webhook_body (secret : Option String) (post : HttpRequest → Except String Unit)
    (url : Option String) (status msg : String) (req : HttpRequest)
    (h : req ∈ (send_webhook secret post url status msg).toList) :
    req.body = webhookBody status msg := by
  by_cases hu : truthy url = true
  · simp only [send_webhook, hu, if_true, Option.toList_some, List.mem_singleton] at h
    subst h
    rfl
  · simp only [Bool.not_eq_true] at hu
    simp [send_webhook, hu] at h

theorem mainRun_requests_shape (env : Env) (o : Oracles) (pp : String) :
    ∃ s m, (s = "failed" ∨ s = "success") ∧
      (mainRun env o pp).requests
        = (send_webhook env.webhookSecret o.post env.webhook s m).toList := by
  simp only [mainRun, failTrace, missingSourceTrace, successTrace, execPhase]
  repeat' split
  all_goals first
    | exact ⟨"failed", _, Or.inl rfl, rfl⟩
    | exact ⟨"success", _, Or.inr rfl, rfl⟩

/-- Counterexample to C9 as stated: a notification secret that is configured
in the process environment but empty produces no Authorization header, so
the header is not present "iff a secret is configured". -/
theorem C9_counterexample :
    (some "" : Option String).isSome = true ∧
    (send_webhook (some "") (fun _ => .ok ()) (some "http://h") "failed" "m").map
        (fun r => r.authHeader) = some none :=
  ⟨rfl, rfl⟩

/-- Claim C9 (amended): every attempted outcome notification is an HTTP POST
whose JSON body is exactly the object with fields `status` and `message`; the
`Authorization: Bearer` header is present iff a non-empty (truthy)
notification secret is configured; and every request a job run issues has
status `"success"` or `"failed"`. -/
theorem C9_webhook_wire_contract :
    (∀ (secret : Option String) (post : HttpRequest → Except String Unit)
        (url : Option String) (status msg : String), truthy url = true →
      ∃ req, send_webhook secret post url status msg = some req ∧
        req.url = url.getD "" ∧
        req.body = webhookBody status msg ∧
        ((truthy secret = true ∧ req.authHeader = some ("Bearer " ++ secret.getD "")) ∨
          (truthy secret = false ∧ req.authHeader = none))) ∧
    (∀ (env : Env) (o : Oracles) (pp : String) (req : HttpRequest),
      req ∈ (mainRun env o pp).requests →
      ∃ m, req.body = webhookBody "success" m ∨ req.body = webhookBody "failed" m) := by
  constructor
  · intro secret post url status msg h
    refine ⟨{ url := url.getD "", body := webhookBody status msg,
              authHeader := if truthy secret then some ("Bearer " ++ secret.getD "")
                else none }, ?_, rfl, rfl, ?_⟩
    · simp [send_webhook, h]
    · by_cases hs : truthy secret = true
      · exact Or.inl ⟨hs, by simp [hs]⟩
      · simp only [Bool.not_eq_true] at hs
        exact Or.inr ⟨hs, by simp [hs]⟩
  · intro env o pp req hreq
    obtain ⟨s, m, hs, hr⟩ := mainRun_requests_shape env o pp
    rw [hr] at hreq
    have hb := send_webhook_body env.webhookSecret o.post env.webhook s m req hreq
    rcases hs with h | h
    · exact ⟨m, Or.inr (h ▸ hb)⟩
    · exact ⟨m, Or.inl (h ▸ hb)⟩

/-- Witness for C9 on a concrete endpoint and non-empty secret. -/
theorem C9_webhook_wire_contract_witness :
    ∃ req, send_webhook (some "tok") (fun _ => .ok ()) (some "http://h") "success" "done"
        = some req ∧
      req.url = (some "http://h").getD "" ∧
      req.body = webhookBody "success" "done" ∧
      ((truthy (some "tok") = true ∧ req.authHeader = some ("Bearer " ++ (some "tok").getD "")) ∨
        (truthy (some "tok") = false ∧ req.authHeader = none)) :=
  C9_webhook_wire_contract.1 (some "tok") (fun _ => .ok ()) (some "http://h") "success" "done"
    (by rfl)

/-! ## C7: workspace cleanup -/

/-- Claim C7: the ephemeral workspace is released on every exit path: any
run that created the workspace ends with no job-created file remaining in
it, whether it ended in success or in any fatal error. -/
theorem C7_workspace_cleanup (env : Env) (o : Oracles) (pp : String)
    (_h : (mainRun env o pp).workspaceCreated = true) :
    (mainRun env o pp).workspaceFilesAtEnd = [] := by
  simp only [mainRun, failTrace, missingSourceTrace, successTrace, execPhase]
  repeat' split
  all_goals rfl

/-- Witness for C7 on a successful concrete run. -/
theorem C7_workspace_cleanup_witness :
    (mainRun envOk oracleOk "params.json").workspaceFilesAtEnd = [] :=
  C7_workspace_cleanup envOk oracleOk "params.json" (by rfl)

/-! ## C10: empty parameters behave as absent parameters -/

/-- Claim C10: a parameters variable set to the empty string is treated
exactly as if no parameters were supplied: the whole run trace coincides
with the unset-parameters trace, the formatter is never invoked, and any
executor invocation stages no parameters file. -/
theorem C10_empty_parameters (env : Env) (o : Oracles) (pp : String) :
    mainRun { env with parameters := some "" } o pp
        = mainRun { env with parameters := none } o pp ∧
    (mainRun { env with parameters := some "" } o pp).formatterInvoked = false ∧
    (∀ t, (mainRun { env with parameters := some "" } o pp).execTrace = some t →
      t.tempFileWritten = none) := by
  refine ⟨rfl, ?_, ?_⟩
  · simp only [mainRun, failTrace, missingSourceTrace, successTrace, execPhase]
    repeat' split
    all_goals first
      | rfl
      | simp_all [truthy]
  · intro t ht
    simp only [mainRun, failTrace, missingSourceTrace, successTrace, execPhase] at ht
    repeat' split at ht
    all_goals first
      | (subst ht; rfl)
      | (simp only [Option.some.injEq] at ht; subst ht; rfl)
      | (exfalso; simp_all [truthy])

/-- Witness for C10: a run with `PARAMETERS=""` reaches the executor with no
staged parameters file. -/
theorem C10_empty_parameters_witness :
    (execute_notebook oracleOk.run "params.json" "notebook.ipynb" "output.ipynb" none
        (some "python3.11")).tempFileWritten = none :=
  (C10_empty_parameters envOk oracleOk "params.json").2.2
    (execute_notebook oracleOk.run "params.json" "notebook.ipynb" "output.ipynb" none
      (some "python3.11")) (by rfl)

/-! ## mainRun path equations -/

theorem mainRun_eq_missing (env : Env) (o : Oracles) (pp : String)
    (hn : truthy env.notebook = false) :
    mainRun env o pp = missingSourceTrace env o := by
  simp [mainRun, hn]

theorem mainRun_eq_fetch_err (env : Env) (o : Oracles) (pp : String) (e : String)
    (hn : truthy env.notebook = true) (hf : o.fetch = .error e) :
    mainRun env o pp
      = failTrace env o ("Failed to download notebook: " ++ e) true false false none := by
  simp [mainRun, hn, hf]

theorem mainRun_eq_kernel_err (env : Env) (o : Oracles) (pp : String) (e : String)
    (hn : truthy env.notebook = true) (hf : o.fetch = .ok ())
    (hk : get_python_kernel o.kernels (get_python_version env) = .error e) :
    mainRun env o pp = failTrace env o e true true false none := by
  simp [mainRun, hn, hf, hk]

theorem mainRun_eq_format_err (env : Env) (o : Oracles) (pp : String) (kn e : String)
    (hn : truthy env.notebook = true) (hf : o.fetch = .ok ())
    (hk : get_python_kernel o.kernels (get_python_version env) = .ok kn)
    (hp : truthy env.parameters = true)
    (hfp : format_parameters (env.parameters.getD "") = .error e) :
    mainRun env o pp = failTrace env o e true true true none := by
  simp [mainRun, hn, hf, hk, hp, hfp]

theorem mainRun_eq_exec_params (env : Env) (o : Oracles) (pp : String) (kn fp : String)
    (hn : truthy env.notebook = true) (hf : o.fetch = .ok ())
    (hk : get_python_kernel o.kernels (get_python_version env) = .ok kn)
    (hp : truthy env.parameters = true)
    (hfp : format_parameters (env.parameters.getD "") = .ok fp) :
    mainRun env o pp = execPhase env o pp kn (some fp) true := by
  simp [mainRun, hn, hf, hk, hp, hfp]

theorem mainRun_eq_exec_noparams (env : Env) (o : Oracles) (pp : String) (kn : String)
    (hn : truthy env.notebook = true) (hf : o.fetch = .ok ())
    (hk : get_python_kernel o.kernels (get_python_version env) = .ok kn)
    (hp : truthy env.parameters = false) :
    mainRun env o pp = execPhase env o pp kn none false := by
  simp [mainRun, hn, hf, hk, hp]

theorem execPhase_eq_err (env : Env) (o : Oracles) (pp kn : String) (fp : Option String)
    (fi : Bool) (e : String)
    (he : (execute_notebook o.run pp "notebook.ipynb" "output.ipynb" fp
        (some kn)).result = .error e) :
    execPhase env o pp kn fp fi = failTrace env o e true true fi
      (some (execute_notebook o.run pp "notebook.ipynb" "output.ipynb" fp (some kn))) := by
  simp only [execPhase]
  rw [he]

theorem execPhase_eq_ok (env : Env) (o : Oracles) (pp kn : String) (fp : Option String)
    (fi : Bool)
    (he : (execute_notebook o.run pp "notebook.ipynb" "output.ipynb" fp
        (some kn)).result = .ok ()) :
    execPhase env o pp kn fp fi = successTrace env o fi
      (execute_notebook o.run pp "notebook.ipynb" "output.ipynb" fp (some kn)) := by
  simp only [execPhase]
  rw [he]

/-! ## C6: exit code reflects the job outcome -/

/-- Claim C6: the process exit code is 0 iff the job succeeded (fetch,
resolution, optional formatting and execution all completed), it is 0 or 1,
any failure exits 1 with the diagnostic recorded and a failure notification
attempted, and a success exits 0 with the success notification attempted. -/
theorem C6_exit_code (env : Env) (o : Oracles) (pp : String) :
    ((mainRun env o pp).exitCode = 0 ↔ JobSuccess env o pp) ∧
    ((mainRun env o pp).exitCode = 0 ∨ (mainRun env o pp).exitCode = 1) ∧
    ((mainRun env o pp).exitCode = 1 →
      ∃ m, (mainRun env o pp).notifications = [(env.webhook, "failed", m)] ∧
        (mainRun env o pp).errorOutput = ["Error: " ++ m]) ∧
    ((mainRun env o pp).exitCode = 0 →
      (mainRun env o pp).notifications
        = [(env.webhook, "success", "Notebook execution completed successfully")]) := by
  by_cases hn : truthy env.notebook = true
  case neg =>
    simp only [Bool.not_eq_true] at hn
    rw [mainRun_eq_missing env o pp hn]
    refine ⟨⟨?_, ?_⟩, Or.inr rfl, fun _ => ⟨_, rfl, rfl⟩, ?_⟩
    · intro h
      simp [missingSourceTrace] at h
    · intro hJ
      exfalso
      unfold JobSuccess at hJ
      obtain ⟨ht, -⟩ := hJ
      rw [hn] at ht
      exact Bool.noConfusion ht
    · intro h
      simp [missingSourceTrace] at h
  case pos =>
    cases hf : o.fetch with
    | error e =>
      rw [mainRun_eq_fetch_err env o pp e hn hf]
      refine ⟨⟨?_, ?_⟩, Or.inr rfl, fun _ => ⟨_, rfl, rfl⟩, ?_⟩
      · intro h
        simp [failTrace] at h
      · intro hJ
        exfalso
        unfold JobSuccess at hJ
        obtain ⟨-, hf2, -⟩ := hJ
        rw [hf] at hf2
        exact Except.noConfusion hf2
      · intro h
        simp [failTrace] at h
    | ok u =>
      cases u
      cases hk : get_python_kernel o.kernels (get_python_version env) with
      | error e =>
        rw [mainRun_eq_kernel_err env o pp e hn hf hk]
        refine ⟨⟨?_, ?_⟩, Or.inr rfl, fun _ => ⟨_, rfl, rfl⟩, ?_⟩
        · intro h
          simp [failTrace] at h
        · intro hJ
          exfalso
          unfold JobSuccess at hJ
          obtain ⟨-, -, k, hk2, -⟩ := hJ
          rw [hk] at hk2
          exact Except.noConfusion hk2
        · intro h
          simp [failTrace] at h
      | ok kn =>
        by_cases hp : truthy env.parameters = true
        · cases hfp : format_parameters (env.parameters.getD "") with
          | error e =>
            rw [mainRun_eq_format_err env o pp kn e hn hf hk hp hfp]
            refine ⟨⟨?_, ?_⟩, Or.inr rfl, fun _ => ⟨_, rfl, rfl⟩, ?_⟩
            · intro h
              simp [failTrace] at h
            · intro hJ
              exfalso
              unfold JobSuccess at hJ
              obtain ⟨-, -, k, hk2, fp2, hdisj, -⟩ := hJ
              rcases hdisj with ⟨-, c, hc, -⟩ | ⟨hpt, -⟩
              · rw [hfp] at hc
                exact Except.noConfusion hc
              · rw [hp] at hpt
                exact Bool.noConfusion hpt
            · intro h
              simp [failTrace] at h
          | ok fp =>
            rw [mainRun_eq_exec_params env o pp kn fp hn hf hk hp hfp]
            cases he : (execute_notebook o.run pp "notebook.ipynb" "output.ipynb" (some fp)
                (some kn)).result with
            | error e =>
              rw [execPhase_eq_err env o pp kn (some fp) true e he]
              refine ⟨⟨?_, ?_⟩, Or.inr rfl, fun _ => ⟨_, rfl, rfl⟩, ?_⟩
              · intro h
                simp [failTrace] at h
              · intro hJ
                exfalso
                unfold JobSuccess at hJ
                obtain ⟨-, -, k, hk2, fp2, hdisj, hx⟩ := hJ
                rw [hk] at hk2
                injection hk2 with hkk
                subst hkk
                rcases hdisj with ⟨-, c, hc, hfp2⟩ | ⟨hpt, -⟩
                · rw [hfp] at hc
                  injection hc with hcc
                  subst hcc
                  subst hfp2
                  rw [he] at hx
                  exact Except.noConfusion hx
                · rw [hp] at hpt
                  exact Bool.noConfusion hpt
              · intro h
                simp [failTrace] at h
            | ok u =>
              cases u
              rw [execPhase_eq_ok env o pp kn (some fp) true he]
              refine ⟨⟨fun _ => ?_, fun _ => rfl⟩, Or.inl rfl, ?_, fun _ => rfl⟩
              · unfold JobSuccess
                exact ⟨hn, hf, kn, hk, some fp, Or.inl ⟨hp, fp, hfp, rfl⟩, he⟩
              · intro h
                simp [successTrace] at h
        · simp only [Bool.not_eq_true] at hp
          rw [mainRun_eq_exec_noparams env o pp kn hn hf hk hp]
          cases he : (execute_notebook o.run pp "notebook.ipynb" "output.ipynb" none
              (some kn)).result with
          | error e =>
            rw [execPhase_eq_err env o pp kn none false e he]
            refine ⟨⟨?_, ?_⟩, Or.inr rfl, fun _ => ⟨_, rfl, rfl⟩, ?_⟩
            · intro h
              simp [failTrace] at h
            · intro hJ
              exfalso
              unfold JobSuccess at hJ
              obtain ⟨-, -, k, hk2, fp2, hdisj, hx⟩ := hJ
              rw [hk] at hk2
              injection hk2 with hkk
              subst hkk
              rcases hdisj with ⟨hpt, -⟩ | ⟨-, hfp2⟩
              · rw [hp] at hpt
                exact Bool.noConfusion hpt
              · subst hfp2
                rw [he] at hx
                exact Except.noConfusion hx
            · intro h
              simp [failTrace] at h
          | ok u =>
            cases u
            rw [execPhase_eq_ok env o pp kn none false he]
            refine ⟨⟨fun _ => ?_, fun _ => rfl⟩, Or.inl rfl, ?_, fun _ => rfl⟩
            · unfold JobSuccess
              exact ⟨hn, hf, kn, hk, none, Or.inr ⟨hp, rfl⟩, he⟩
            · intro h
              simp [successTrace] at h

/-- Witness for C6: a concrete failing run (no kernel installed) exits 1
with the resolution diagnostic, and a concrete successful run exits 0. -/
theorem C6_exit_code_witness :
    (∃ m, (mainRun envOk { oracleOk with kernels := [] } "params.json").notifications
          = [(none, "failed", m)] ∧
        (mainRun envOk { oracleOk with kernels := [] } "params.json").errorOutput
          = ["Error: " ++ m]) ∧
    (mainRun envOk oracleOk "params.json").notifications
        = [(none, "success", "Notebook execution completed successfully")] :=
  ⟨(C6_exit_code envOk { oracleOk with kernels := [] } "params.json").2.2.1 (by rfl),
   (C6_exit_code envOk oracleOk "params.json").2.2.2 (by rfl)⟩

/-! ## Whitespace and token lemmas -/

theorem skipWs_cons_ws (c : Char) (cs : List Char) (h : isWsCh c = true) :
    skipWs (c :: cs) = skipWs cs := by
  simp [skipWs, h]

theorem skipWs_cons_nws (c : Char) (cs : List Char) (h : isWsCh c = false) :
    skipWs (c :: cs) = c :: cs := by
  simp [skipWs, h]

theorem skipWs_replicate (n : Nat) (r : List Char) :
    skipWs (List.replicate n ' ' ++ r) = skipWs r := by
  induction n with
  | zero => rfl
  | succ m ih =>
    rw [List.replicate_succ, List.cons_append, skipWs_cons_ws _ _ (by decide), ih]

theorem skipWs_nlInd (ind : Nat) (r : List Char) :
    skipWs (nlInd ind ++ r) = skipWs r := by
  rw [nlInd, List.cons_append, skipWs_cons_ws _ _ (by decide), skipWs_replicate]

theorem mk_toList (s : String) : String.mk s.toList = s := by
  cases s
  rfl

theorem digit_facts (c : Char) (h : c.isDigit = true) :
    c ≠ '"' ∧ c ≠ '[' ∧ c ≠ '{' ∧ c ≠ 'n' ∧ c ≠ 't' ∧ c ≠ 'f' ∧ c ≠ '-' ∧ c ≠ ']' ∧
      c ≠ '}' ∧ c ≠ ',' ∧ isWsCh c = false := by
  have hne : ∀ d : Char, d.isDigit = false → c ≠ d := by
    intro d hd hcd
    rw [hcd, hd] at h
    exact Bool.noConfusion h
  refine ⟨hne _ (by decide), hne _ (by decide), hne _ (by decide), hne _ (by decide),
    hne _ (by decide), hne _ (by decide), hne _ (by decide), hne _ (by decide),
    hne _ (by decide), hne _ (by decide), ?_⟩
  simp only [isWsCh, Bool.or_eq_false_iff, decide_eq_false_iff_not]
  exact ⟨⟨⟨hne _ (by decide), hne _ (by decide)⟩, hne _ (by decide)⟩, hne _ (by decide)⟩

theorem digitChar_isDigit (d : Nat) (h : d < 10) : (digitChar d).isDigit = true := by
  interval_cases d <;> decide

theorem digitChar_toNat (d : Nat) (h : d < 10) : (digitChar d).toNat = 48 + d := by
  interval_cases d <;> decide

theorem natDigits_spec (n : Nat) :
    natDigits n ≠ [] ∧ ∀ c ∈ natDigits n, c.isDigit = true := by
  induction n using Nat.strong_induction_on with
  | _ n ih =>
    rw [natDigits]
    split
    · next h =>
      refine ⟨by simp, ?_⟩
      intro c hc
      simp only [List.mem_singleton] at hc
      subst hc
      exact digitChar_isDigit n h
    · next h =>
      have hlt : n / 10 < n := Nat.div_lt_self (by omega) (by omega)
      obtain ⟨-, hdig⟩ := ih (n / 10) hlt
      refine ⟨by simp, ?_⟩
      intro c hc
      rw [List.mem_append, List.mem_singleton] at hc
      rcases hc with hc | hc
      · exact hdig c hc
      · subst hc
        exact digitChar_isDigit (n % 10) (Nat.mod_lt _ (by omega))

theorem digitsToNat_natDigits (n : Nat) : digitsToNat (natDigits n) = n := by
  induction n using Nat.strong_induction_on with
  | _ n ih =>
    rw [natDigits]
    split
    · next h =>
      simp [digitsToNat, digitChar_toNat n h]
    · next h =>
      have hlt : n / 10 < n := Nat.div_lt_self (by omega) (by omega)
      have hm : n % 10 < 10 := Nat.mod_lt _ (by omega)
      simp only [digitsToNat, List.foldl_append, List.foldl_cons, List.foldl_nil]
      rw [show (natDigits (n / 10)).foldl (fun a c => a * 10 + (c.toNat - 48)) 0
          = digitsToNat (natDigits (n / 10)) from rfl, ih (n / 10) hlt,
        digitChar_toNat _ hm]
      omega

theorem spanDigits_exact (l r : List Char) (hl : ∀ c ∈ l, c.isDigit = true)
    (hr : noDigitHead r = true) : spanDigits (l ++ r) = (l, r) := by
  induction l with
  | nil =>
    cases r with
    | nil => rfl
    | cons c t =>
      simp only [noDigitHead, Bool.not_eq_true'] at hr
      simp [spanDigits, hr]
  | cons c l2 ih =>
    have hc : c.isDigit = true := hl c (by simp)
    have ih2 := ih (fun d hd => hl d (by simp [hd]))
    simp [spanDigits, hc, ih2]

theorem parseIntTok_renderInt (i : Int) (r : List Char) (hr : noDigitHead r = true) :
    parseIntTok (renderInt i ++ r) = some (i, r) := by
  cases i with
  | ofNat n =>
    obtain ⟨hne, hdig⟩ := natDigits_spec n
    obtain ⟨c, t, hct⟩ := List.exists_cons_of_ne_nil hne
    have hc : c.isDigit = true := hdig c (by rw [hct]; simp)
    have hcdash : c ≠ '-' := (digit_facts c hc).2.2.2.2.2.2.1
    rw [renderInt, hct, List.cons_append, parseIntTok]
    rw [if_neg hcdash, ← List.cons_append, ← hct, spanDigits_exact _ _ hdig hr]
    simp [hct]
    rw [← hct, digitsToNat_natDigits]
  | negSucc m =>
    obtain ⟨hne, hdig⟩ := natDigits_spec (m + 1)
    rw [renderInt, List.cons_append, parseIntTok, if_pos rfl,
      spanDigits_exact _ _ hdig hr]
    have hne2 : natDigits (m + 1) ≠ [] := hne
    simp only [List.isEmpty_eq_true, hne2, if_false, digitsToNat_natDigits]
    have hcast : -((m + 1 : Nat) : Int) = Int.negSucc m := by
      rw [Int.negSucc_eq]
      push_cast
      ring
    rw [hcast]

theorem parseStrRest_escape (l r : List Char) :
    parseStrRest (escapeList l ++ '"' :: r) = some (l, r) := by
  induction l with
  | nil => simp [escapeList, parseStrRest.eq_def]
  | cons c l2 ih =>
    by_cases h1 : c = '"'
    · subst h1
      simp [escapeList, escapeChar, parseStrRest, unescChar, ih]
    · by_cases h2 : c = '\\'
      · subst h2
        simp [escapeList, escapeChar, parseStrRest, unescChar, ih]
      · by_cases h3 : c = '\n'
        · subst h3
          simp [escapeList, escapeChar, parseStrRest, unescChar, ih]
        · by_cases h4 : c = '\t'
          · subst h4
            simp [escapeList, escapeChar, parseStrRest, unescChar, ih]
          · by_cases h5 : c = '\r'
            · subst h5
              simp [escapeList, escapeChar, parseStrRest, unescChar, ih]
            · simp only [escapeList, escapeChar, if_neg h1, if_neg h2, if_neg h3, if_neg h4,
                if_neg h5, List.singleton_append]
              rw [parseStrRest.eq_def]
              split
              next heq => simp at heq
              next e cs2 heq =>
                injection heq with he hcs
                subst he
                subst hcs
                simp only [if_neg h1, if_neg h2, List.append_eq]
                rw [ih]

/-! ## Render head shapes and parser unfolding -/

theorem renderHead (ind : Nat) (v : Json) :
    ∃ c t, renderVal ind v = c :: t ∧ isWsCh c = false ∧ c ≠ ']' ∧ c ≠ '}' := by
  cases v with
  | null =>
    exact ⟨'n', ['u', 'l', 'l'], by simp [renderVal], by decide, by decide, by decide⟩
  | bool b =>
    cases b with
    | true =>
      exact ⟨'t', ['r', 'u', 'e'], by simp [renderVal], by decide, by decide, by decide⟩
    | false =>
      exact ⟨'f', ['a', 'l', 's', 'e'], by simp [renderVal], by decide, by decide, by decide⟩
  | num i =>
    cases i with
    | ofNat n =>
      obtain ⟨hne, hdig⟩ := natDigits_spec n
      obtain ⟨c, t, hct⟩ := List.exists_cons_of_ne_nil hne
      have hc : c.isDigit = true := hdig c (by rw [hct]; simp)
      have hf := digit_facts c hc
      exact ⟨c, t, by simp [renderVal, renderInt, hct], hf.2.2.2.2.2.2.2.2.2.2,
        hf.2.2.2.2.2.2.2.1, hf.2.2.2.2.2.2.2.2.1⟩
    | negSucc m =>
      exact ⟨'-', natDigits (m + 1), by simp [renderVal, renderInt], by decide, by decide,
        by decide⟩
  | str s =>
    exact ⟨'"', escapeList s.toList ++ ['"'], by simp [renderVal, renderStr], by decide,
      by decide, by decide⟩
  | arr xs =>
    cases xs with
    | nil => exact ⟨'[', [']'], by simp [renderVal], by decide, by decide, by decide⟩
    | cons x l =>
      exact ⟨'[', nlInd (ind + 2) ++ renderVal (ind + 2) x ++ renderElems (ind + 2) l
        ++ nlInd ind ++ [']'], by simp [renderVal], by decide, by decide, by decide⟩
  | obj fs =>
    cases fs with
    | nil => exact ⟨'{', ['}'], by simp [renderVal], by decide, by decide, by decide⟩
    | cons f l =>
      obtain ⟨k, v2⟩ := f
      exact ⟨'{', nlInd (ind + 2) ++ renderStr k ++ ':' :: ' ' :: renderVal (ind + 2) v2
        ++ renderFields (ind + 2) l ++ nlInd ind ++ ['}'], by simp [renderVal], by decide,
        by decide, by decide⟩

theorem noDigitHead_nlInd (ind : Nat) (tail : List Char) :
    noDigitHead (nlInd ind ++ tail) = true := by
  simp [nlInd, noDigitHead]

theorem noDigitHead_elems (ind : Nat) (xs : List Json) (ind2 : Nat) (tail : List Char) :
    noDigitHead (renderElems ind xs ++ (nlInd ind2 ++ tail)) = true := by
  cases xs with
  | nil => simp [renderElems, nlInd, noDigitHead]
  | cons x l => simp [renderElems, noDigitHead]

theorem noDigitHead_fields (ind : Nat) (fs : List (String × Json)) (ind2 : Nat)
    (tail : List Char) :
    noDigitHead (renderFields ind fs ++ (nlInd ind2 ++ tail)) = true := by
  cases fs with
  | nil => simp [renderFields, nlInd, noDigitHead]
  | cons f l =>
    obtain ⟨k, v⟩ := f
    simp [renderFields, noDigitHead]

theorem parseV_succ (f : Nat) (cs : List Char) :
    parseV (f + 1) cs = valStep (parseV f) (parseElemsRest f) (parseFieldsRest f) cs := rfl

theorem parseElemsRest_succ (f : Nat) (cs : List Char) :
    parseElemsRest (f + 1) cs = elemsStep (parseV f) (parseElemsRest f) cs := rfl

theorem parseFieldsRest_succ (f : Nat) (cs : List Char) :
    parseFieldsRest (f + 1) cs = fieldsStep (parseV f) (parseFieldsRest f) cs := rfl

theorem valStep_null (pv : List Char → Except String (Json × List Char))
    (pe : List Char → Except String (List Json × List Char))
    (pf : List Char → Except String (List (String × Json) × List Char)) (r : List Char) :
    valStep pv pe pf ('n' :: 'u' :: 'l' :: 'l' :: r) = .ok (.null, r) := rfl

theorem valStep_true (pv : List Char → Except String (Json × List Char))
    (pe : List Char → Except String (List Json × List Char))
    (pf : List Char → Except String (List (String × Json) × List Char)) (r : List Char) :
    valStep pv pe pf ('t' :: 'r' :: 'u' :: 'e' :: r) = .ok (.bool true, r) := rfl

theorem valStep_false (pv : List Char → Except String (Json × List Char))
    (pe : List Char → Except String (List Json × List Char))
    (pf : List Char → Except String (List (String × Json) × List Char)) (r : List Char) :
    valStep pv pe pf ('f' :: 'a' :: 'l' :: 's' :: 'e' :: r) = .ok (.bool false, r) := rfl

theorem valStep_quote (pv : List Char → Except String (Json × List Char))
    (pe : List Char → Except String (List Json × List Char))
    (pf : List Char → Except String (List (String × Json) × List Char)) (cs2 : List Char) :
    valStep pv pe pf ('"' :: cs2)
      = (match parseStrRest cs2 with
         | none => .error "Unterminated string"
         | some (l, r) => .ok (.str (String.mk l), r)) := rfl

theorem valStep_lbrack (pv : List Char → Except String (Json × List Char))
    (pe : List Char → Except String (List Json × List Char))
    (pf : List Char → Except String (List (String × Json) × List Char)) (cs2 : List Char) :
    valStep pv pe pf ('[' :: cs2)
      = (if (skipWs cs2).head? = some ']' then .ok (.arr [], (skipWs cs2).tail)
         else
           match pv (skipWs cs2) with
           | .error e => .error e
           | .ok (x, r1) =>
             match pe r1 with
             | .error e => .error e
             | .ok (xs, r2) => .ok (.arr (x :: xs), r2)) := rfl

theorem valStep_lcurl (pv : List Char → Except String (Json × List Char))
    (pe : List Char → Except String (List Json × List Char))
    (pf : List Char → Except String (List (String × Json) × List Char)) (cs2 : List Char) :
    valStep pv pe pf ('{' :: cs2)
      = (if (skipWs cs2).head? = some '}' then .ok (.obj [], (skipWs cs2).tail)
         else if (skipWs cs2).head? = some '"' then
           match parseStrRest (skipWs cs2).tail with
           | none => .error "Unterminated string"
           | some (k, r1) =>
             if (skipWs r1).head? = some ':' then
               match pv (skipWs r1).tail with
               | .error e => .error e
               | .ok (v, r2) =>
                 match pf r2 with
                 | .error e => .error e
                 | .ok (fs, r3) => .ok (.obj ((String.mk k, v) :: fs), r3)
             else .error "Expecting colon delimiter"
         else .error "Expecting property name enclosed in double quotes") := rfl

theorem valStep_dash (pv : List Char → Except String (Json × List Char))
    (pe : List Char → Except String (List Json × List Char))
    (pf : List Char → Except String (List (String × Json) × List Char)) (cs2 : List Char) :
    valStep pv pe pf ('-' :: cs2)
      = (match parseIntTok ('-' :: cs2) with
         | none => .error "Expecting value"
         | some (i, r) => .ok (.num i, r)) := rfl

theorem valStep_digit (pv : List Char → Except String (Json × List Char))
    (pe : List Char → Except String (List Json × List Char))
    (pf : List Char → Except String (List (String × Json) × List Char))
    (c : Char) (cs2 : List Char) (h : c.isDigit = true) :
    valStep pv pe pf (c :: cs2)
      = (match parseIntTok (c :: cs2) with
         | none => .error "Expecting value"
         | some (i, r) => .ok (.num i, r)) := by
  obtain ⟨hq, hlb, hlc, hn, ht, hf2, hd, -, -, -, hws⟩ := digit_facts c h
  simp only [valStep, skipWs_cons_nws c cs2 hws]
  rw [if_neg hq, if_neg hlb, if_neg hlc, if_neg hn, if_neg ht, if_neg hf2]
  have hcond : (decide (c = '-') || c.isDigit) = true := by simp [h]
  rw [if_pos hcond]

theorem elemsStep_close (pv : List Char → Except String (Json × List Char))
    (pe : List Char → Except String (List Json × List Char)) (ind : Nat) (r : List Char) :
    elemsStep pv pe (nlInd ind ++ ']' :: r) = .ok ([], r) := by
  have h1 : skipWs (nlInd ind ++ ']' :: r) = ']' :: r := by
    rw [skipWs_nlInd, skipWs_cons_nws ']' r (by decide)]
  simp only [elemsStep, h1]

theorem elemsStep_comma (pv : List Char → Except String (Json × List Char))
    (pe : List Char → Except String (List Json × List Char)) (cs2 : List Char) :
    elemsStep pv pe (',' :: cs2)
      = (match pv cs2 with
         | .error e => .error e
         | .ok (x, r1) =>
           match pe r1 with
           | .error e => .error e
           | .ok (xs, r2) => .ok (x :: xs, r2)) := rfl

theorem fieldsStep_close (pv : List Char → Except String (Json × List Char))
    (pf : List Char → Except String (List (String × Json) × List Char)) (ind : Nat)
    (r : List Char) :
    fieldsStep pv pf (nlInd ind ++ '}' :: r) = .ok ([], r) := by
  have h1 : skipWs (nlInd ind ++ '}' :: r) = '}' :: r := by
    rw [skipWs_nlInd, skipWs_cons_nws '}' r (by decide)]
  simp only [fieldsStep, h1]

theorem fieldsStep_comma (pv : List Char → Except String (Json × List Char))
    (pf : List Char → Except String (List (String × Json) × List Char)) (cs2 : List Char) :
    fieldsStep pv pf (',' :: cs2)
      = (if (skipWs cs2).head? = some '"' then
           match parseStrRest (skipWs cs2).tail with
           | none => .error "Unterminated string"
           | some (k, r1) =>
             if (skipWs r1).head? = some ':' then
               match pv (skipWs r1).tail with
               | .error e => .error e
               | .ok (v, r2) =>
                 match pf r2 with
                 | .error e => .error e
                 | .ok (fs, r3) => .ok ((String.mk k, v) :: fs, r3)
             else .error "Expecting colon delimiter"
         else .error "Expecting property name enclosed in double quotes") := rfl

theorem parseV_nlInd (f ind : Nat) (cs : List Char) :
    parseV f (nlInd ind ++ cs) = parseV f cs := by
  cases f with
  | zero => rfl
  | succ g =>
    rw [parseV_succ, parseV_succ]
    simp only [valStep, skipWs_nlInd]

theorem parseV_space (f : Nat) (cs : List Char) :
    parseV f (' ' :: cs) = parseV f cs := by
  cases f with
  | zero => rfl
  | succ g =>
    rw [parseV_succ, parseV_succ]
    simp only [valStep, skipWs_cons_ws ' ' cs (by decide)]

theorem jsonFuel_pos (v : Json) : 1 ≤ jsonFuel v := by
  cases v <;> simp [jsonFuel]

theorem elemsFuel_pos (xs : List Json) : 1 ≤ elemsFuel xs := by
  cases xs <;> simp [elemsFuel] <;> omega

theorem fieldsFuel_pos (fs : List (String × Json)) : 1 ≤ fieldsFuel fs := by
  cases fs with
  | nil => simp [fieldsFuel]
  | cons f l =>
    obtain ⟨k, v⟩ := f
    simp [fieldsFuel]
    omega

theorem skipWs_colon (cs : List Char) : skipWs (':' :: cs) = ':' :: cs :=
  skipWs_cons_nws ':' cs (by decide)

theorem valStep_num (pv : List Char → Except String (Json × List Char))
    (pe : List Char → Except String (List Json × List Char))
    (pf : List Char → Except String (List (String × Json) × List Char))
    (i : Int) (r : List Char) (hr : noDigitHead r = true) :
    valStep pv pe pf (renderInt i ++ r) = .ok (.num i, r) := by
  have hp := parseIntTok_renderInt i r hr
  cases i with
  | ofNat n =>
    obtain ⟨hne, hdig⟩ := natDigits_spec n
    obtain ⟨c, t, hct⟩ := List.exists_cons_of_ne_nil hne
    have hc : c.isDigit = true := hdig c (by rw [hct]; simp)
    have h1 : renderInt (Int.ofNat n) ++ r = c :: (t ++ r) := by
      rw [show renderInt (Int.ofNat n) = natDigits n from rfl, hct, List.cons_append]
    rw [h1, valStep_digit _ _ _ c _ hc, ← h1, hp]
  | negSucc m =>
    have h1 : renderInt (Int.negSucc m) ++ r = '-' :: (natDigits (m + 1) ++ r) := by
      rw [show renderInt (Int.negSucc m) = '-' :: natDigits (m + 1) from rfl,
        List.cons_append]
    rw [h1, valStep_dash, ← h1, hp]

/-- Modelled from the spec, main round trip: at sufficient fuel the parser
reads back exactly the canonical serialization of any value, leaving any
suffix intact (a digit must not follow a serialized number). -/
theorem parse_render (fuel : Nat) :
    (∀ v ind r, jsonFuel v ≤ fuel → noDigitHead r = true →
      parseV fuel (renderVal ind v ++ r) = .ok (v, r)) ∧
    (∀ xs ind ind2 r, elemsFuel xs ≤ fuel →
      parseElemsRest fuel (renderElems ind xs ++ (nlInd ind2 ++ ']' :: r)) = .ok (xs, r)) ∧
    (∀ fs ind ind2 r, fieldsFuel fs ≤ fuel →
      parseFieldsRest fuel (renderFields ind fs ++ (nlInd ind2 ++ '}' :: r))
        = .ok (fs, r)) := by
  induction fuel with
  | zero =>
    refine ⟨?_, ?_, ?_⟩
    · intro v ind r hfu _
      exact absurd hfu (by have := jsonFuel_pos v; omega)
    · intro xs ind ind2 r hfu
      exact absurd hfu (by have := elemsFuel_pos xs; omega)
    · intro fs ind ind2 r hfu
      exact absurd hfu (by have := fieldsFuel_pos fs; omega)
  | succ f ih =>
    obtain ⟨ihV, ihE, ihF⟩ := ih
    refine ⟨?_, ?_, ?_⟩
    · intro v ind r hfu hr
      cases v with
      | null =>
        have h0 : renderVal ind Json.null = ['n', 'u', 'l', 'l'] := by simp [renderVal]
        rw [h0, parseV_succ]
        exact valStep_null _ _ _ r
      | bool b =>
        cases b with
        | true =>
          have h0 : renderVal ind (Json.bool true) = ['t', 'r', 'u', 'e'] := by
            simp [renderVal]
          rw [h0, parseV_succ]
          exact valStep_true _ _ _ r
        | false =>
          have h0 : renderVal ind (Json.bool false) = ['f', 'a', 'l', 's', 'e'] := by
            simp [renderVal]
          rw [h0, parseV_succ]
          exact valStep_false _ _ _ r
      | num i =>
        have h0 : renderVal ind (Json.num i) = renderInt i := by simp [renderVal]
        rw [h0, parseV_succ]
        exact valStep_num _ _ _ i r hr
      | str s =>
        have h0 : renderVal ind (Json.str s) ++ r
            = '"' :: (escapeList s.toList ++ '"' :: r) := by
          simp [renderVal, renderStr]
        rw [h0, parseV_succ, valStep_quote, parseStrRest_escape]
        simp only [mk_toList]
      | arr xs =>
        cases xs with
        | nil =>
          have h0 : renderVal ind (Json.arr []) ++ r = '[' :: (']' :: r) := by
            simp [renderVal]
          rw [h0, parseV_succ, valStep_lbrack, skipWs_cons_nws ']' r (by decide)]
          simp
        | cons x xs2 =>
          have hb : jsonFuel x ≤ f ∧ elemsFuel xs2 ≤ f := by
            simp only [jsonFuel, elemsFuel] at hfu
            omega
          have h0 : renderVal ind (Json.arr (x :: xs2)) ++ r
              = '[' :: (nlInd (ind + 2) ++ (renderVal (ind + 2) x
                ++ (renderElems (ind + 2) xs2 ++ (nlInd ind ++ ']' :: r)))) := by
            simp [renderVal]
          rw [h0, parseV_succ, valStep_lbrack, skipWs_nlInd]
          obtain ⟨c0, t0, hc0, hws0, hbr0, -⟩ := renderHead (ind + 2) x
          rw [hc0, List.cons_append, skipWs_cons_nws c0 _ hws0]
          rw [if_neg (by simp [hbr0])]
          rw [← List.cons_append, ← hc0]
          simp only [ihV x (ind + 2)
              (renderElems (ind + 2) xs2 ++ (nlInd ind ++ ']' :: r)) hb.1
              (noDigitHead_elems (ind + 2) xs2 ind (']' :: r)),
            ihE xs2 (ind + 2) ind r hb.2]
      | obj fs =>
        cases fs with
        | nil =>
          have h0 : renderVal ind (Json.obj []) ++ r = '{' :: ('}' :: r) := by
            simp [renderVal]
          rw [h0, parseV_succ, valStep_lcurl, skipWs_cons_nws '}' r (by decide)]
          simp
        | cons kv fs2 =>
          obtain ⟨k, v2⟩ := kv
          have hb : jsonFuel v2 ≤ f ∧ fieldsFuel fs2 ≤ f := by
            simp only [jsonFuel, fieldsFuel] at hfu
            omega
          have h0 : renderVal ind (Json.obj ((k, v2) :: fs2)) ++ r
              = '{' :: (nlInd (ind + 2) ++ ('"' :: (escapeList k.toList
                ++ '"' :: (':' :: (' ' :: (renderVal (ind + 2) v2
                  ++ (renderFields (ind + 2) fs2 ++ (nlInd ind ++ '}' :: r)))))))) := by
            simp [renderVal, renderStr]
          rw [h0, parseV_succ, valStep_lcurl, skipWs_nlInd,
            skipWs_cons_nws '"' _ (by decide)]
          rw [if_neg (by simp), if_pos (by simp)]
          rw [List.tail_cons, parseStrRest_escape]
          simp only [skipWs_colon, List.head?_cons, List.tail_cons, Option.some.injEq,
            parseV_space,
            ihV v2 (ind + 2)
              (renderFields (ind + 2) fs2 ++ (nlInd ind ++ '}' :: r)) hb.1
              (noDigitHead_fields (ind + 2) fs2 ind ('}' :: r)),
            ihF fs2 (ind + 2) ind r hb.2, mk_toList]
          simp
    · intro xs ind ind2 r hfu
      cases xs with
      | nil =>
        have h0 : renderElems ind ([] : List Json) = [] := by simp [renderElems]
        rw [h0, List.nil_append, parseElemsRest_succ, elemsStep_close]
      | cons x xs2 =>
        have hb : jsonFuel x ≤ f ∧ elemsFuel xs2 ≤ f := by
          simp only [elemsFuel] at hfu
          omega
        have h0 : renderElems ind (x :: xs2) ++ (nlInd ind2 ++ ']' :: r)
            = ',' :: (nlInd ind ++ (renderVal ind x
              ++ (renderElems ind xs2 ++ (nlInd ind2 ++ ']' :: r)))) := by
          simp [renderElems]
        rw [h0, parseElemsRest_succ, elemsStep_comma, parseV_nlInd]
        simp only [ihV x ind (renderElems ind xs2 ++ (nlInd ind2 ++ ']' :: r)) hb.1
            (noDigitHead_elems ind xs2 ind2 (']' :: r)),
          ihE xs2 ind ind2 r hb.2]
    · intro fs ind ind2 r hfu
      cases fs with
      | nil =>
        have h0 : renderFields ind ([] : List (String × Json)) = [] := by
          simp [renderFields]
        rw [h0, List.nil_append, parseFieldsRest_succ, fieldsStep_close]
      | cons kv fs2 =>
        obtain ⟨k, v2⟩ := kv
        have hb : jsonFuel v2 ≤ f ∧ fieldsFuel fs2 ≤ f := by
          simp only [fieldsFuel] at hfu
          omega
        have h0 : renderFields ind ((k, v2) :: fs2) ++ (nlInd ind2 ++ '}' :: r)
            = ',' :: (nlInd ind ++ ('"' :: (escapeList k.toList
              ++ '"' :: (':' :: (' ' :: (renderVal ind v2
                ++ (renderFields ind fs2 ++ (nlInd ind2 ++ '}' :: r)))))))) := by
          simp [renderFields, renderStr]
        rw [h0, parseFieldsRest_succ, fieldsStep_comma, skipWs_nlInd,
          skipWs_cons_nws '"' _ (by decide)]
        rw [if_pos (by simp)]
        rw [List.tail_cons, parseStrRest_escape]
        simp only [skipWs_colon, List.head?_cons, List.tail_cons, Option.some.injEq,
          parseV_space,
          ihV v2 ind (renderFields ind fs2 ++ (nlInd ind2 ++ '}' :: r)) hb.1
            (noDigitHead_fields ind fs2 ind2 ('}' :: r)),
          ihF fs2 ind ind2 r hb.2, mk_toList]
        simp

/-- The serialization is at least as long as the fuel the parser needs
(minus one), so parsing with fuel `length + 1` always suffices. -/
theorem fuel_le_render (fuel : Nat) :
    (∀ v, jsonFuel v ≤ fuel → ∀ ind, jsonFuel v ≤ (renderVal ind v).length + 1) ∧
    (∀ xs, elemsFuel xs ≤ fuel → ∀ ind, elemsFuel xs ≤ (renderElems ind xs).length + 2) ∧
    (∀ fs, fieldsFuel fs ≤ fuel → ∀ ind,
      fieldsFuel fs ≤ (renderFields ind fs).length + 2) := by
  induction fuel with
  | zero =>
    refine ⟨?_, ?_, ?_⟩
    · intro v hfu
      exact absurd hfu (by have := jsonFuel_pos v; omega)
    · intro xs hfu
      exact absurd hfu (by have := elemsFuel_pos xs; omega)
    · intro fs hfu
      exact absurd hfu (by have := fieldsFuel_pos fs; omega)
  | succ f ih =>
    obtain ⟨ihV, ihE, ihF⟩ := ih
    refine ⟨?_, ?_, ?_⟩
    · intro v hfu ind
      cases v with
      | null => simp [jsonFuel, renderVal]
      | bool b => cases b <;> simp [jsonFuel, renderVal]
      | num i => simp [jsonFuel]
      | str s => simp [jsonFuel]
      | arr xs =>
        cases xs with
        | nil => simp [jsonFuel, elemsFuel, renderVal]
        | cons x xs2 =>
          simp only [jsonFuel, elemsFuel] at hfu ⊢
          have h1 := ihV x (by omega) (ind + 2)
          have h2 := ihE xs2 (by omega) (ind + 2)
          simp only [renderVal, List.length_cons, List.length_append, nlInd,
            List.length_replicate, List.length_singleton]
          omega
      | obj fs =>
        cases fs with
        | nil => simp [jsonFuel, fieldsFuel, renderVal]
        | cons kv fs2 =>
          obtain ⟨k, v2⟩ := kv
          simp only [jsonFuel, fieldsFuel] at hfu ⊢
          have h1 := ihV v2 (by omega) (ind + 2)
          have h2 := ihF fs2 (by omega) (ind + 2)
          simp only [renderVal, List.length_cons, List.length_append, nlInd,
            List.length_replicate, List.length_singleton]
          omega
    · intro xs hfu ind
      cases xs with
      | nil => simp [elemsFuel, renderElems]
      | cons x xs2 =>
        simp only [elemsFuel] at hfu ⊢
        have h1 := ihV x (by omega) ind
        have h2 := ihE xs2 (by omega) ind
        simp only [renderElems, List.length_cons, List.length_append, nlInd,
          List.length_replicate]
        omega
    · intro fs hfu ind
      cases fs with
      | nil => simp [fieldsFuel, renderFields]
      | cons kv fs2 =>
        obtain ⟨k, v2⟩ := kv
        simp only [fieldsFuel] at hfu ⊢
        have h1 := ihV v2 (by omega) ind
        have h2 := ihF fs2 (by omega) ind
        simp only [renderFields, List.length_cons, List.length_append, nlInd,
          List.length_replicate]
        omega

/-- The canonical serialization of any structured value parses back to
exactly that value. -/
theorem parseJson_renderJson (v : Json) : parseJson (renderJson v) = .ok v := by
  have hlen : jsonFuel v ≤ (renderVal 0 v).length + 1 :=
    (fuel_le_render (jsonFuel v)).1 v le_rfl 0
  have hrt := (parse_render ((renderVal 0 v).length + 1)).1 v 0 [] hlen rfl
  rw [List.append_nil] at hrt
  simp only [parseJson, renderJson]
  rw [show (String.mk (renderVal 0 v)).length = (renderVal 0 v).length from rfl,
    show (String.mk (renderVal 0 v)).toList = renderVal 0 v from rfl, hrt]
  rfl

/-! ## C4: formatting is idempotent -/

/-- Claim C4: parameter formatting is idempotent: whenever `format` succeeds
on some text, applying `format` to its canonical output returns exactly that
output again, byte for byte. -/
theorem C4_format_idempotent (t c : String) (h : format_parameters t = .ok c) :
    format_parameters c = .ok c := by
  unfold format_parameters at h
  cases hp : parseJson t with
  | error e =>
    rw [hp] at h
    exact Except.noConfusion h
  | ok v =>
    rw [hp] at h
    injection h with hc
    subst hc
    unfold format_parameters
    rw [parseJson_renderJson v]

/-- Witness for C4 on the text `"null"`, whose canonical form is itself. -/
theorem C4_format_idempotent_witness : format_parameters "null" = .ok "null" :=
  C4_format_idempotent "null" "null" (by
    have h1 : parseJson "null" = .ok Json.null := rfl
    unfold format_parameters
    rw [h1]
    show Except.ok (String.mk (renderVal 0 Json.null)) = Except.ok "null"
    rw [show renderVal 0 Json.null = ['n', 'u', 'l', 'l'] from by simp [renderVal]])

/-! ## C5: malformed input produces a FormatError -/

/-- Claim C5: `format_parameters` is total: on every input it either succeeds
or fails with the `Invalid JSON parameters` error wrapping the parse
diagnostic raised by the structured-data parser; no other outcome exists. -/
theorem C5_format_error_handling (t : String) :
    (∃ c, format_parameters t = .ok c) ∨
    (∃ e, parseJson t = .error e ∧
      format_parameters t = .error ("Invalid JSON parameters: " ++ e)) := by
  cases hp : parseJson t with
  | ok v =>
    refine Or.inl ⟨renderJson v, ?_⟩
    unfold format_parameters
    rw [hp]
  | error e =>
    refine Or.inr ⟨e, rfl, ?_⟩
    unfold format_parameters
    rw [hp]

